import Mathlib

/-!
Shallow embedding of the go-mcp MCP server (package `mcp`): the descriptor
model, tool registry (`RegisterTool`, `ListTools`), invocation engine
(`CallTool`), the method handlers (`MethodInitialize`,
`MethodNotificationInitialized`, `MethodToolsList`, `MethodToolsCall`), the
router (`ProcessRequest`) and the in-memory session manager.

Conventions of the embedding:
* Go machine integers are modelled as `Int` with explicit wrapping
  (`wrapInt`) at conversion points; the platform-dependent `int`/`uint`
  kinds are modelled as 64-bit, matching the usual 64-bit targets.
* `reflect.Type` is modelled by `GoType`, `reflect.Kind` by `GoKind`, and
  runtime values flowing through the generic call machinery by `GoValue`.
  IEEE-754 float values are not modelled at the value level: a `vFloat`
  carries the decimal literal the wire supplied (theorems below never
  depend on Go's float formatting or rounding).
* Go `(T, error)` returns become `Except String T` (the `String` being
  `err.Error()`); functions that mutate server/session state additionally
  return the new state.
* Go maps (`s.Tools`, the session store, JSON objects, schema properties)
  are association lists with first-match lookup and replace-on-insert;
  iteration order of a Go map is arbitrary, and no theorem below depends
  on the order in which the model iterates.
-/

namespace GoMcp

/-- Model of `reflect.Kind` (the kinds this package can meet). -/
inductive GoKind where
  | int | int8 | int16 | int32 | int64
  | uint | uint8 | uint16 | uint32 | uint64
  | float32 | float64
  | string | bool
  | iface
  | struct
  | func
  | other
deriving DecidableEq, Repr

/-- Model of `reflect.Type` as far as the registry inspects it: scalar
types, interface types (classified by which of `context.Context` / `error`
they implement), and anything else. -/
inductive GoType where
  | int | int8 | int16 | int32 | int64
  | uint | uint8 | uint16 | uint32 | uint64
  | float32 | float64
  | str | bool
  | ctxIface   -- an interface type implementing context.Context
  | errIface   -- an interface type implementing error
  | otherIface -- any other interface type
  | otherType  -- any non-interface, non-scalar type
deriving DecidableEq, Repr

/-- `Type.Kind()` on the model of `reflect.Type`. -/
def GoType.kind : GoType → GoKind
  | .int => .int | .int8 => .int8 | .int16 => .int16
  | .int32 => .int32 | .int64 => .int64
  | .uint => .uint | .uint8 => .uint8 | .uint16 => .uint16
  | .uint32 => .uint32 | .uint64 => .uint64
  | .float32 => .float32 | .float64 => .float64
  | .str => .string | .bool => .bool
  | .ctxIface => .iface | .errIface => .iface | .otherIface => .iface
  | .otherType => .struct

/-- `Type.Implements(context.Context)` on the model. -/
def GoType.implementsContext : GoType → Bool
  | .ctxIface => true
  | _ => false

/-- `Type.Implements(error)` on the model. -/
def GoType.implementsError : GoType → Bool
  | .errIface => true
  | _ => false

/-- The integer kinds handled by the first case of the coercion switch in
`MethodToolsCall`. -/
def GoKind.isIntKind : GoKind → Bool
  | .int | .int8 | .int16 | .int32 | .int64
  | .uint | .uint8 | .uint16 | .uint32 | .uint64 => true
  | _ => false

/-- The float kinds handled by the second case of the coercion switch. -/
def GoKind.isFloatKind : GoKind → Bool
  | .float32 | .float64 => true
  | _ => false

/-- Bit width of an integer kind (Go `int`/`uint` taken as 64-bit). -/
def GoKind.bits : GoKind → Nat
  | .int => 64 | .int8 => 8 | .int16 => 16 | .int32 => 32 | .int64 => 64
  | .uint => 64 | .uint8 => 8 | .uint16 => 16 | .uint32 => 32 | .uint64 => 64
  | _ => 0

/-- Whether an integer kind is signed. -/
def GoKind.signed : GoKind → Bool
  | .int | .int8 | .int16 | .int32 | .int64 => true
  | _ => false

/-- Go's truncating integer conversion `K(v)` from `int64` to an
integer kind `k`: the low `k.bits` bits, reinterpreted with `k`'s
signedness (two's complement). -/
def wrapInt (k : GoKind) (v : Int) : Int :=
  if k.signed then Int.bmod v (2 ^ k.bits) else v % ((2 : Int) ^ k.bits)

/-- A value is representable in kind `k` exactly when wrapping it is the
identity. -/
def fitsKind (k : GoKind) (v : Int) : Prop := wrapInt k v = v

instance (k : GoKind) (v : Int) : Decidable (fitsKind k v) := by
  unfold fitsKind; infer_instance

/-! ## JSON wire values

What the transport decoder (`encoding/json` with `UseNumber`) hands to the
handlers: numbers arrive as unparsed `json.Number` literals. -/

/-- A decoded JSON value. `num` carries the unparsed literal
(`json.Number`). -/
inductive Json where
  | num (lit : String)
  | str (s : String)
  | jbool (b : Bool)
  | null
  | arr (elems : List Json)
  | obj (fields : List (String × Json))
deriving BEq, Repr

/-- First-match lookup in a JSON object, i.e. Go `m[key]` plus the
`, ok` flag. -/
def jsonLookup (fields : List (String × Json)) (key : String) : Option Json :=
  match fields with
  | [] => none
  | (k, v) :: rest => if k = key then some v else jsonLookup rest key

/-- Value of a nonempty string of decimal digits; `none` when a
non-digit appears or the string is empty. -/
def decDigitsVal? (cs : List Char) : Option Nat :=
  match cs with
  | [] => none
  | _ =>
    cs.foldl
      (fun acc c =>
        match acc with
        | none => none
        | some n => if c.isDigit then some (n * 10 + (c.toNat - '0'.toNat)) else none)
      (some 0)

/-- `json.Number.Int64`, i.e. `strconv.ParseInt(lit, 10, 64)`: an optional
sign followed by decimal digits, value within the signed 64-bit range. -/
def goParseInt64 (s : String) : Option Int :=
  let cs := s.data
  let signDigits : Bool × List Char :=
    match cs with
    | '-' :: rest => (true, rest)
    | '+' :: rest => (false, rest)
    | _ => (false, cs)
  match decDigitsVal? signDigits.2 with
  | none => none
  | some n =>
    let v : Int := if signDigits.1 then -(n : Int) else (n : Int)
    if -(2 ^ 63) ≤ v ∧ v ≤ 2 ^ 63 - 1 then some v else none

/-- Exact decomposition of a decimal float literal in Go syntax
(`[+-]? (digits [. digits?] | . digits) ([eE] [+-]? digits)?`): the sign,
the mantissa digits as a natural number and the decimal exponent, so the
literal's exact value is `±mant * 10^dexp`; `none` on a syntax error.
The hexadecimal, `Inf`/`NaN` and digit-separator-underscore forms that
`strconv.ParseFloat` also accepts cannot reach this code through the
JSON decoder and are not modelled. -/
def goParseFloatDec? (s : String) : Option (Bool × Nat × Int) :=
  let cs := s.data
  let signRest : Bool × List Char :=
    match cs with
    | '-' :: rest => (true, rest)
    | '+' :: rest => (false, rest)
    | _ => (false, cs)
  let intPart := signRest.2.takeWhile Char.isDigit
  let afterInt := signRest.2.dropWhile Char.isDigit
  let fracState : List Char × List Char :=
    match afterInt with
    | '.' :: rest => (rest.takeWhile Char.isDigit, rest.dropWhile Char.isDigit)
    | _ => ([], afterInt)
  let fracPart := fracState.1
  let afterFrac := fracState.2
  if intPart.isEmpty ∧ fracPart.isEmpty then none
  else
    let mantissa := intPart ++ fracPart
    let mant : Nat := mantissa.foldl (fun n c => n * 10 + (c.toNat - '0'.toNat)) 0
    let dexp0 : Int := -(fracPart.length : Int)
    let expCont : List Char → Option (Bool × Nat × Int) := fun expChars =>
      let esignRest : Bool × List Char :=
        match expChars with
        | '-' :: rest => (true, rest)
        | '+' :: rest => (false, rest)
        | _ => (false, expChars)
      match decDigitsVal? esignRest.2 with
      | none => none
      | some e =>
        some (signRest.1, mant, if esignRest.1 then dexp0 - (e : Int) else dexp0 + (e : Int))
    match afterFrac with
    | [] => some (signRest.1, mant, dexp0)
    | 'e' :: rest => expCont rest
    | 'E' :: rest => expCont rest
    | _ => none

/-- `json.Number.Float64`, i.e. `strconv.ParseFloat(lit, 64)`, reduced to
its success condition: the literal must be syntactically valid and must
not overflow — a magnitude at or beyond `2^1024 - 2^970` (the
round-to-nearest-even boundary) rounds to ±Inf and yields `ErrRange`.
Decimal underflow is not an error in Go: a tiny nonzero literal parses
to 0 with a nil error, so it is accepted here. The comparison
`mant * 10^dexp < 2^1024 - 2^970` is carried out in exact integer
arithmetic, cross-multiplied when `dexp` is negative. -/
def goParseFloat64Ok (s : String) : Bool :=
  match goParseFloatDec? s with
  | none => false
  | some (_, mant, dexp) =>
    if 0 ≤ dexp then mant * 10 ^ dexp.toNat < 2 ^ 1024 - 2 ^ 970
    else mant < (2 ^ 1024 - 2 ^ 970) * 10 ^ (-dexp).toNat

/-! ## Errors (`error.go`) -/

/-- Standard JSON-RPC error codes. -/
def ErrInvalidRequestCode : Int := -32600
def ErrMethodNotFoundCode : Int := -32601
def ErrInvalidParametersCode : Int := -32602
def ErrInternalErrorCode : Int := -32603
def ErrParseErrorCode : Int := -32700

/-- `McpError`. The `data` payloads this package builds are string-valued
maps, modelled as association lists. -/
structure McpError where
  code : Int
  message : String
  data : Option (List (String × String)) := none
deriving DecidableEq, Repr

/-- `McpError.Error()`. -/
def McpError.goError (e : McpError) : String := e.message

def NewMcpError (code : Int) (message : String) (data : Option (List (String × String))) :
    McpError :=
  { code := code, message := message, data := data }

def ErrNoSessionHeader : McpError := NewMcpError ErrInvalidRequestCode "no session header" none
def ErrSessionAlreadyInitialized : McpError :=
  NewMcpError ErrInvalidRequestCode "session already initialized" none
def ErrSessionNotFound : McpError := NewMcpError ErrInvalidRequestCode "session not found" none
def ErrSessionNotInitialized : McpError :=
  NewMcpError ErrInvalidRequestCode "session not initialized" none
def ErrInvalidMcpRequestParameters : McpError :=
  NewMcpError ErrInvalidParametersCode "invalid params" none

def NewErrUnknownMethod (method : String) : McpError :=
  { code := ErrMethodNotFoundCode, message := "unknown method",
    data := some [("method", method)] }

/-- `type McpToolDataType string` (called `McpToolParameterType` in the
tool-model file the main server file compiles against; both are plain
string aliases with the same constants). -/
abbrev McpToolDataType := String

def McpToolDataTypeString : McpToolDataType := "string"
def McpToolDataTypeNumber : McpToolDataType := "number"
def McpToolDataTypeBoolean : McpToolDataType := "boolean"
def McpToolDataTypeError : McpToolDataType := "error"
def McpToolDataTypeContext : McpToolDataType := "context"

def NewErrInvalidArgumentType (name : String) (expected : McpToolDataType) : McpError :=
  { code := ErrInvalidParametersCode, message := "invalid argument type",
    data := some [("argument", name), ("type", expected)] }

def NewErrInternalError (message : String) (data : Option (List (String × String))) : McpError :=
  { code := ErrInternalErrorCode, message := message, data := data }

/-! ## Runtime values in the generic call machinery -/

/-- A Go runtime value as it flows through `CallTool`: the coerced scalar
arguments, the injected context, and the `reflect.Value`s returned by
`f.Call` (whose kinds are those of the callable's declared result types,
so an `error` result has kind `iface`). A `vFloat` keeps the decimal
literal it was coerced from; Go's float formatting and IEEE rounding are
not modelled, and no theorem below depends on them. -/
inductive GoValue where
  | vInt (k : GoKind) (n : Int)
  | vFloat (k : GoKind) (lit : String)
  | vStr (s : String)
  | vBool (b : Bool)
  | vErr (msg : Option String)
  | vCtx
deriving DecidableEq, Repr

/-- Kind of a value at its declared type (`reflect.Value.Kind()` on a
call result; for the scalar arguments the declared and dynamic kinds
coincide). -/
def GoValue.kind : GoValue → GoKind
  | .vInt k _ => k
  | .vFloat k _ => k
  | .vStr _ => .string
  | .vBool _ => .bool
  | .vErr _ => .iface
  | .vCtx => .iface

/-- `fmt.Sprint` on a call result: decimal rendering for integers, the
string itself, `true`/`false` for booleans, `err.Error()` for a non-nil
error — these branches are exact. The float branch is a placeholder: Go
renders the parsed double with shortest round-trip formatting
(`strconv.FormatFloat(f, 'g', -1, 64)`, so the literal `"1.10"` prints
as `"1.1"`), which is IEEE-754 behaviour outside this embedding; the
stored literal is returned instead, and no theorem below relies on this
branch. -/
def goSprint : GoValue → String
  | .vInt _ n => toString n
  | .vFloat _ lit => lit
  | .vStr s => s
  | .vBool b => if b then "true" else "false"
  | .vErr (some m) => m
  | .vErr none => "<nil>"
  | .vCtx => "context"

/-! ## Tool model (tool types file) -/

/-- `McpToolParameter`. Go zero values: empty strings, empty (invalid)
type tag, `reflect.Invalid` kind — the latter modelled by `GoKind.other`
never being produced by registration. -/
structure McpToolParameter where
  name : String := ""
  description : String := ""
  type : McpToolDataType := ""
  kind : GoKind := .other
deriving DecidableEq, Repr

/-- A registered callable: either not a function at all, or a function
with declared input/output types and the (pure) behaviour used when the
invocation engine calls it generically. -/
inductive GoCallable where
  | notFunc
  | fn (ins : List GoType) (outs : List GoType) (impl : List GoValue → List GoValue)

/-- `McpTool`. `function = none` models a nil `Function` field. -/
structure McpTool where
  name : String := ""
  description : String := ""
  function : Option GoCallable := none
  parameters : List McpToolParameter := []
  output : List McpToolParameter := []

/-- `s.Tools`, a Go map modelled as an association list (first-match
lookup, in-place replace on insert). -/
abbrev ToolMap := List (String × McpTool)

def toolLookup (m : ToolMap) (name : String) : Option McpTool :=
  match m with
  | [] => none
  | (k, t) :: rest => if k = name then some t else toolLookup rest name

/-- Go map assignment `m[k] = v`: replace the existing entry or append. -/
def toolInsert (m : ToolMap) (name : String) (t : McpTool) : ToolMap :=
  match m with
  | [] => [(name, t)]
  | (k, t') :: rest =>
    if k = name then (k, t) :: rest else (k, t') :: toolInsert rest name t

/-- `McpToolInputSchemaProperty`. -/
structure McpToolInputSchemaProperty where
  type : String
  description : String
deriving DecidableEq, Repr

/-- `McpToolInputSchema`; `properties` is a Go map, modelled as an
association list with replace-on-insert. -/
structure McpToolInputSchema where
  type : String
  properties : List (String × McpToolInputSchemaProperty)
  required : List String
deriving DecidableEq, Repr

/-- Go map assignment on the properties map. -/
def propInsert (m : List (String × McpToolInputSchemaProperty)) (name : String)
    (p : McpToolInputSchemaProperty) : List (String × McpToolInputSchemaProperty) :=
  match m with
  | [] => [(name, p)]
  | (k, p') :: rest =>
    if k = name then (k, p) :: rest else (k, p') :: propInsert rest name p

structure McpToolDescriptor where
  name : String
  description : String
  inputSchema : McpToolInputSchema
deriving DecidableEq, Repr

/-- `McpToolOutputType`. -/
inductive McpToolOutputType where
  | text
  | error
deriving DecidableEq, Repr

/-- `McpToolOutput` (the fields the scalar/error paths populate). -/
structure McpToolOutput where
  type : McpToolOutputType
  text : String := ""
deriving DecidableEq, Repr

/-- `reflect.Kind.String()` for the kinds of the model (used in error
messages). -/
def GoKind.str : GoKind → String
  | .int => "int" | .int8 => "int8" | .int16 => "int16"
  | .int32 => "int32" | .int64 => "int64"
  | .uint => "uint" | .uint8 => "uint8" | .uint16 => "uint16"
  | .uint32 => "uint32" | .uint64 => "uint64"
  | .float32 => "float32" | .float64 => "float64"
  | .string => "string" | .bool => "bool"
  | .iface => "interface" | .struct => "struct" | .func => "func"
  | .other => "invalid"

/-- The first (integer and float) case list of the registration switches. -/
def numericKind (k : GoKind) : Bool := k.isIntKind || k.isFloatKind

/-! ## `RegisterTool` (server.go) -/

/-- The input-classification loop of `RegisterTool` (`for i := range
toolInfo.NumIn()`), carried out from start index `i`. -/
def regInputs (params : List McpToolParameter) (contextOffset : Nat) :
    List GoType → Nat → Except String (List McpToolParameter)
  | [], _ => .ok []
  | arg :: rest, i =>
    let p0 : McpToolParameter :=
      if contextOffset ≤ i then
        { name := (params.getD (i - contextOffset) {}).name,
          description := (params.getD (i - contextOffset) {}).description,
          kind := arg.kind }
      else {}
    let classified : Except String McpToolParameter :=
      if numericKind arg.kind then .ok { p0 with type := McpToolDataTypeNumber }
      else if arg.kind = .string then .ok { p0 with type := McpToolDataTypeString }
      else if arg.kind = .bool then .ok { p0 with type := McpToolDataTypeBoolean }
      else if arg.kind = .iface then
        if arg.implementsContext then
          if i ≠ 0 then .error "context.Context must be the first parameter"
          else .ok { p0 with type := McpToolDataTypeContext }
        else .error ("unsupported function return type: " ++ arg.kind.str)
      else .error ("unsupported function parameter type: " ++ arg.kind.str)
    match classified with
    | .error e => .error e
    | .ok p => (regInputs params contextOffset rest (i + 1)).map (p :: ·)

/-- The output-classification loop of `RegisterTool`. -/
def regOutputs : List GoType → Nat → Except String (List McpToolParameter)
  | [], _ => .ok []
  | out :: rest, i =>
    let p0 : McpToolParameter := { name := "out" ++ toString i, kind := out.kind }
    let classified : Except String McpToolParameter :=
      if numericKind out.kind then .ok { p0 with type := McpToolDataTypeNumber }
      else if out.kind = .string then .ok { p0 with type := McpToolDataTypeString }
      else if out.kind = .bool then .ok { p0 with type := McpToolDataTypeBoolean }
      else if out.kind = .iface then
        if out.implementsError then .ok { p0 with type := McpToolDataTypeError }
        else .error ("unsupported function return type: " ++ out.kind.str)
      else .error ("unsupported function return type: " ++ out.kind.str)
    match classified with
    | .error e => .error e
    | .ok p => (regOutputs rest (i + 1)).map (p :: ·)

/-- `RegisterTool`. Returns the Go error (if any) and the tool map after
the call; the map is inserted into only on the success path. -/
def RegisterTool (tools : ToolMap) (name description : String) (tool : GoCallable)
    (params : List McpToolParameter) : Option String × ToolMap :=
  if (toolLookup tools name).isSome then
    (some ("tool " ++ name ++ " already registered"), tools)
  else
    match tool with
    | .notFunc => (some "tool must be a function", tools)
    | .fn ins outs impl =>
      let contextOffset : Nat :=
        match ins.head? with
        | some t => if t.implementsContext then 1 else 0
        | none => 0
      if ins.length ≠ params.length + contextOffset then
        (some "parameter count does not match the number of tool parameters", tools)
      else
        match regInputs params contextOffset ins 0 with
        | .error e => (some e, tools)
        | .ok ps =>
          match regOutputs outs 0 with
          | .error e => (some e, tools)
          | .ok os =>
            (none,
             toolInsert tools name
               { name := name, description := description,
                 function := some (.fn ins outs impl),
                 parameters := ps, output := os })

/-! ## `ListTools` (server.go) -/

/-- The per-tool schema loop of `ListTools` (`for i, param := range
tool.Parameters`): builds the properties map and the required list,
failing on a context parameter that is not first. -/
def buildSchema : List McpToolParameter → Nat →
    List (String × McpToolInputSchemaProperty) → List String →
    Except String (List (String × McpToolInputSchemaProperty) × List String)
  | [], _, props, req => .ok (props, req)
  | p :: rest, i, props, req =>
    if p.type = McpToolDataTypeContext then
      if i ≠ 0 then .error "context.Context must be the first parameter"
      else buildSchema rest (i + 1) props req
    else
      buildSchema rest (i + 1)
        (propInsert props p.name { type := p.type, description := p.description })
        (req ++ [p.name])

/-- The outer loop of `ListTools` over the (arbitrarily ordered) tool
map. -/
def listToolsAux : List (String × McpTool) → Except String (List McpToolDescriptor)
  | [] => .ok []
  | (_, t) :: rest =>
    match buildSchema t.parameters 0 [] [] with
    | .error e => .error e
    | .ok (props, req) =>
      (listToolsAux rest).map
        (fun ds =>
          { name := t.name, description := t.description,
            inputSchema := { type := "object", properties := props, required := req } } :: ds)

/-- `ListTools`. -/
def ListTools (tools : ToolMap) : Except String (List McpToolDescriptor) :=
  if tools.isEmpty then .error "no registered tools"
  else listToolsAux tools

/-! ## `CallTool` (server.go) -/

/-- The argument-assembly loop of `CallTool` (`for i, p := range
tool.Parameters`): positions below the context offset are skipped, the
rest take `params[i-contextOffset]` after an exact kind check. Indexing
past the supplied arguments panics in Go; the panic is modelled as an
error. -/
def checkArgs (toolName : String) (callParams : List GoValue) :
    List McpToolParameter → Nat → Nat → Except String (List GoValue)
  | [], _, _ => .ok []
  | p :: rest, i, off =>
    if off ≤ i then
      match callParams.get? (i - off) with
      | none => .error "panic: index out of range"
      | some arg =>
        if arg.kind ≠ p.kind then
          .error ("tool " ++ toolName ++ " parameter " ++ toString i ++
            " has wrong type: expected " ++ p.kind.str ++ ", got " ++ arg.kind.str)
        else (checkArgs toolName callParams rest (i + 1) off).map (arg :: ·)
    else checkArgs toolName callParams rest (i + 1) off

/-- The output-mapping loop of `CallTool` (`for i, o := range
tool.Output`) with its accumulator. A non-nil value in a declared
`error` slot resets the accumulator to the single error entry; the
`break` in the source only leaves the `switch`, so the loop continues
with the following outputs. A nil error slot contributes nothing. -/
def buildOutput (toolName : String) :
    List (McpToolParameter × GoValue) → Nat → List McpToolOutput →
    Except String (List McpToolOutput)
  | [], _, acc => .ok acc
  | (o, v) :: rest, i, acc =>
    if o.kind ≠ v.kind then
      .error ("tool " ++ toolName ++ " return value " ++ toString i ++
        " has wrong type: expected " ++ o.kind.str ++ ", got " ++ v.kind.str)
    else if o.type = McpToolDataTypeString ∨ o.type = McpToolDataTypeNumber ∨
        o.type = McpToolDataTypeBoolean then
      buildOutput toolName rest (i + 1) (acc ++ [{ type := .text, text := goSprint v }])
    else if o.type = McpToolDataTypeError then
      match v with
      | .vErr (some m) => buildOutput toolName rest (i + 1) [{ type := .error, text := m }]
      | _ => buildOutput toolName rest (i + 1) acc
    else
      .error ("tool " ++ toolName ++ " return value " ++ toString i ++
        " has unsupported type: " ++ o.type)

/-- `CallTool`. -/
def CallTool (tools : ToolMap) (name : String) (params : List GoValue) :
    Except String (List McpToolOutput) :=
  match toolLookup tools name with
  | none => .error ("tool " ++ name ++ " not found")
  | some tool =>
    match tool.function with
    | none => .error ("tool " ++ name ++ " has no function")
    | some .notFunc => .error ("tool " ++ name ++ " is not a function")
    | some (.fn _ _ impl) =>
      let contextOffset : Nat :=
        match tool.parameters.head? with
        | some p => if p.type = McpToolDataTypeContext then 1 else 0
        | none => 0
      match checkArgs name params tool.parameters 0 contextOffset with
      | .error e => .error e
      | .ok checked =>
        let args := (if contextOffset = 1 then [GoValue.vCtx] else []) ++ checked
        let out := impl args
        if out.length ≠ tool.output.length then
          .error ("tool " ++ name ++ " has wrong number of return values: expected " ++
            toString tool.output.length ++ ", got " ++ toString out.length)
        else
          buildOutput name (tool.output.zip out) 0 []

/-! ## Argument coercion (`MethodToolsCall` loop) -/

/-- Coercion of one present wire value into a parameter's primitive kind
(the `switch p.Kind` of `MethodToolsCall`): integer kinds require a
`json.Number` parsed by `Int64` and then a truncating native cast, float
kinds a `json.Number` parsed by `Float64`, string/boolean kinds an exact
wire-type match; everything else is `NewErrInvalidArgumentType`. -/
def coerceArg (p : McpToolParameter) (val : Json) : Except McpError GoValue :=
  if p.kind.isIntKind then
    match val with
    | .num lit =>
      match goParseInt64 lit with
      | none => .error (NewErrInvalidArgumentType p.name p.type)
      | some v => .ok (.vInt p.kind (wrapInt p.kind v))
    | _ => .error (NewErrInvalidArgumentType p.name p.type)
  else if p.kind.isFloatKind then
    match val with
    | .num lit =>
      if goParseFloat64Ok lit then .ok (.vFloat p.kind lit)
      else .error (NewErrInvalidArgumentType p.name p.type)
    | _ => .error (NewErrInvalidArgumentType p.name p.type)
  else if p.kind = .string then
    match val with
    | .str s => .ok (.vStr s)
    | _ => .error (NewErrInvalidArgumentType p.name p.type)
  else if p.kind = .bool then
    match val with
    | .jbool b => .ok (.vBool b)
    | _ => .error (NewErrInvalidArgumentType p.name p.type)
  else .error (NewErrInvalidArgumentType p.name p.type)

/-- The argument-conversion loop of `MethodToolsCall` (`for _, p := range
tool.Parameters`): context parameters are skipped, a missing key fails
with the `missing arguments` error, present values go through
`coerceArg`. -/
def coerceToolArgs (callArgs : List (String × Json)) :
    List McpToolParameter → Except McpError (List GoValue)
  | [] => .ok []
  | p :: rest =>
    if p.type = McpToolDataTypeContext then coerceToolArgs callArgs rest
    else
      match jsonLookup callArgs p.name with
      | none =>
        .error (NewMcpError ErrInvalidParametersCode "missing arguments"
          (some [("argument", p.name)]))
      | some val =>
        match coerceArg p val with
        | .error e => .error e
        | .ok v => (coerceToolArgs callArgs rest).map (v :: ·)

/-! ## Sessions (session.go, session/memory/manager.go) -/

/-- `McpSession`: an immutable session value. -/
structure McpSession where
  sessionID : String := ""
  initialized : Bool := false
deriving DecidableEq, Repr

/-- The in-memory session store (`SessionManager.Sessions`), a Go map
modelled as an association list. -/
abbrev SessionStore := List (String × McpSession)

def sessLookup (store : SessionStore) (sid : String) : Option McpSession :=
  match store with
  | [] => none
  | (k, s) :: rest => if k = sid then some s else sessLookup rest sid

def sessInsert (store : SessionStore) (sid : String) (s : McpSession) : SessionStore :=
  match store with
  | [] => [(sid, s)]
  | (k, s') :: rest =>
    if k = sid then (k, s) :: rest else (k, s') :: sessInsert rest sid s

/-- `SessionManager.GetSession`. -/
def GetSession (store : SessionStore) (sid : String) : Option McpSession :=
  sessLookup store sid

/-- `SessionManager.CreateSession`. The freshly generated UUID is an
explicit input (`freshId`); the error branch of the random generator is
not modelled (it never fires in practice and no claim touches it). -/
def CreateSession (store : SessionStore) (freshId : String) : McpSession × SessionStore :=
  let sess : McpSession := { sessionID := freshId }
  (sess, sessInsert store freshId sess)

/-- `SessionManager.SetSessionInitialized`: fails (with
`ErrSessionNotFound`, surfaced through `err.Error()`) when the session
record is absent, otherwise persists a copy with the new flag. -/
def SetSessionInitialized (store : SessionStore) (sess : McpSession) (init : Bool) :
    Except String (McpSession × SessionStore) :=
  if (sessLookup store sess.sessionID).isNone then
    .error ErrSessionNotFound.goError
  else
    let newSession := { sess with initialized := init }
    .ok (newSession, sessInsert store sess.sessionID newSession)

/-! ## Responses and context -/

structure McpServerInfo where
  name : String
  version : String
deriving DecidableEq, Repr

structure McpCapabilityPrompts where
  listChanged : Bool
deriving DecidableEq, Repr

structure McpCapabilityResources where
  listChanged : Bool
  subscribe : Bool
deriving DecidableEq, Repr

structure McpCapabilityTools where
  listChanged : Bool
deriving DecidableEq, Repr

/-- `McpServerCapabilities`: every block is a nullable pointer (absent
blocks are omitted from the serialized payload); `logging` is a map,
present iff non-nil. -/
structure McpServerCapabilities where
  logging : Option Unit := none
  prompts : Option McpCapabilityPrompts := none
  resources : Option McpCapabilityResources := none
  tools : Option McpCapabilityTools := none
deriving DecidableEq, Repr

structure McpInitializeResponse where
  protocolVersion : String
  capabilities : McpServerCapabilities
  serverInfo : McpServerInfo
  instructions : String
deriving DecidableEq, Repr

/-- The structured result payloads the four handlers produce. -/
inductive McpResult where
  | initR (r : McpInitializeResponse)
  | toolsR (tools : List McpToolDescriptor)
  | callR (content : List McpToolOutput) (isError : Bool)
deriving DecidableEq, Repr

/-- `McpResponse`. `results = none` models a nil `Results` interface
(which `json:"result,omitempty"` drops from the serialization), likewise
`error`. -/
structure McpResponse where
  jsonrpc : String := "2.0"
  id : String := ""
  results : Option McpResult := none
  error : Option McpError := none
deriving DecidableEq, Repr

/-- The top-level keys of the serialized response envelope:
`result`/`error` appear exactly when the corresponding field is
non-nil (`omitempty` on an interface / pointer field). -/
def responseKeys (r : McpResponse) : List String :=
  ["jsonrpc", "id"] ++ (if r.results.isSome then ["result"] else []) ++
    (if r.error.isSome then ["error"] else [])

/-- The per-call `context.Context`: the request ID and session injected by
the router (`SetRequestIDInContext` / `SetSessionInContext`). -/
structure McpContext where
  requestID : Option String := none
  session : Option McpSession := none
deriving DecidableEq, Repr

/-- `McpRequest` (id kept as its exact literal). -/
structure McpRequest where
  jsonrpc : String := "2.0"
  id : String := ""
  method : String := ""
  params : Json := .null

/-- `McpServer` (the fields the modelled methods read). Prompts and
resources carry no structure the core inspects beyond their count. -/
structure McpServer where
  name : String := ""
  version : String := ""
  jsonRPC : String := "2.0"
  protocolVersion : String := "2025-03-26"
  instructions : String := ""
  logging : Bool := false
  prompts : List Unit := []
  resources : List Unit := []
  tools : ToolMap := []

/-- `CreateMcpResponse`: fails (as a Go error) when the context has no
request ID. -/
def CreateMcpResponse (s : McpServer) (ctx : McpContext) (result : Option McpResult) :
    Except String McpResponse :=
  match ctx.requestID with
  | none => .error "request ID not found"
  | some rid => .ok { jsonrpc := s.jsonRPC, id := rid, results := result, error := none }

/-- `CreateMcpErrorResponse`: degrades to the sentinel id `-1` when the
context has no request ID. -/
def CreateMcpErrorResponse (s : McpServer) (ctx : McpContext) (e : McpError) : McpResponse :=
  { jsonrpc := s.jsonRPC, id := ctx.requestID.getD "-1", results := none, error := some e }

/-! ## Method handlers -/

/-- A handler returns Go's `(resp, err)` pair (`.error` = non-nil `err`)
together with the session store after the call. -/
abbrev HandlerResult := Except String McpResponse × SessionStore

/-- `MethodInitialize`. -/
def MethodInitialize (s : McpServer) (store : SessionStore) (ctx : McpContext)
    (_req : McpRequest) : HandlerResult :=
  match ctx.session with
  | none => (.error "session not found", store)
  | some sess =>
    if sess.initialized then
      (.ok (CreateMcpErrorResponse s ctx ErrSessionAlreadyInitialized), store)
    else
      let init : McpInitializeResponse :=
        { protocolVersion := s.protocolVersion,
          capabilities :=
            { logging := if s.logging then some () else none,
              prompts := if s.prompts.length > 0 then some { listChanged := false } else none,
              resources :=
                if s.resources.length > 0 then
                  some { listChanged := false, subscribe := false }
                else none,
              tools := if s.tools.length > 0 then some { listChanged := false } else none },
          serverInfo := { name := s.name, version := s.version },
          instructions := s.instructions }
      (CreateMcpResponse s ctx (some (.initR init)), store)

/-- `MethodNotificationInitialized`. -/
def MethodNotificationInitialized (s : McpServer) (store : SessionStore) (ctx : McpContext)
    (_req : McpRequest) : HandlerResult :=
  match ctx.session with
  | none => (.error "session not found", store)
  | some sess =>
    if sess.initialized then
      (.ok (CreateMcpErrorResponse s ctx ErrSessionAlreadyInitialized), store)
    else
      match SetSessionInitialized store sess true with
      | .error e => (.error e, store)
      | .ok (_, store') => (CreateMcpResponse s ctx none, store')

/-- `MethodToolsList`. -/
def MethodToolsList (s : McpServer) (store : SessionStore) (ctx : McpContext)
    (_req : McpRequest) : HandlerResult :=
  match ctx.session with
  | none => (.error "session not found", store)
  | some sess =>
    if !sess.initialized then
      (.ok (CreateMcpErrorResponse s ctx ErrSessionNotInitialized), store)
    else
      match ListTools s.tools with
      | .error e => (.error e, store)
      | .ok ts => (CreateMcpResponse s ctx (some (.toolsR ts)), store)

/-- `MethodToolsCall`. -/
def MethodToolsCall (s : McpServer) (store : SessionStore) (ctx : McpContext)
    (req : McpRequest) : HandlerResult :=
  match ctx.session with
  | none => (.error "session not found", store)
  | some sess =>
    if !sess.initialized then
      (.ok (CreateMcpErrorResponse s ctx ErrSessionNotInitialized), store)
    else
      match req.params with
      | .obj fields =>
        (match jsonLookup fields "name" with
        | none =>
          (.ok (CreateMcpErrorResponse s ctx
            (NewMcpError ErrInvalidParametersCode "missing tool name" none)), store)
        | some (.str toolName) =>
          (match toolLookup s.tools toolName with
          | none =>
            (.ok (CreateMcpErrorResponse s ctx
              (NewMcpError ErrMethodNotFoundCode "tool not found" none)), store)
          | some tool =>
            let argsRes : Except McpError (List (String × Json)) :=
              match jsonLookup fields "arguments" with
              | none => .ok []
              | some (.obj a) => .ok a
              | some _ =>
                .error (NewMcpError ErrInvalidRequestCode "arguments is not object" none)
            match argsRes with
            | .error e => (.ok (CreateMcpErrorResponse s ctx e), store)
            | .ok callArgs =>
              match coerceToolArgs callArgs tool.parameters with
              | .error e => (.ok (CreateMcpErrorResponse s ctx e), store)
              | .ok toolArgs =>
                match CallTool s.tools toolName toolArgs with
                | .error _ =>
                  ((.error (NewMcpError ErrInternalErrorCode "error calling tool"
                    none).goError), store)
                | .ok result =>
                  match result.find? (fun o => o.type == .error) with
                  | some o =>
                    (CreateMcpResponse s ctx
                      (some (.callR [{ type := .text, text := o.text }] true)), store)
                  | none =>
                    (CreateMcpResponse s ctx (some (.callR result false)), store))
        | some _ =>
          (.ok (CreateMcpErrorResponse s ctx
            (NewMcpError ErrInvalidParametersCode "invalid tool name" none)), store))
      | _ => (.ok (CreateMcpErrorResponse s ctx ErrInvalidMcpRequestParameters), store)

/-! ## Router (`ProcessRequest`) -/

/-- A registered method (`McpMethodFunc`, the server threaded
explicitly). -/
abbrev MethodHandler :=
  McpServer → SessionStore → McpContext → McpRequest → HandlerResult

def methodLookup (ms : List (String × MethodHandler)) (name : String) :
    Option MethodHandler :=
  match ms with
  | [] => none
  | (k, h) :: rest => if k = name then some h else methodLookup rest name

/-- The method table `NewMcpServer` registers. -/
def defaultMethods : List (String × MethodHandler) :=
  [("initialize", MethodInitialize),
   ("notifications/initialized", MethodNotificationInitialized),
   ("tools/list", MethodToolsList),
   ("tools/call", MethodToolsCall)]

/-- What the transport collaborator supplies to one `ProcessRequest`
call: the decoded request (or a decode failure) and
`GetSessionID`'s pair. A non-mcp `GetSessionID` error is any value other
than `ErrNoSessionHeader`. -/
structure TransportInput where
  request : Except String McpRequest
  sessionID : String := ""
  sessionIDErr : Option McpError := none

/-- `ProcessRequest`: transport decode, session resolution (create on
absent id, look up otherwise), method dispatch, and wrapping of handler
Go-errors as `InternalError` responses. The transport's
`ProcessResponse` is the identity in the model (the response envelope is
returned as is), and `freshId` is the UUID `CreateSession` would draw. -/
def ProcessRequest (s : McpServer) (methods : List (String × MethodHandler))
    (store : SessionStore) (t : TransportInput) (freshId : String) :
    McpResponse × SessionStore :=
  match t.request with
  | .error _ =>
    (CreateMcpErrorResponse s {}
      (NewMcpError ErrInvalidRequestCode "invalid request" none), store)
  | .ok mcpReq =>
    let ctx0 : McpContext := { requestID := some mcpReq.id, session := none }
    let badSidErr : Bool :=
      match t.sessionIDErr with
      | none => false
      | some e => decide (e ≠ ErrNoSessionHeader)
    if badSidErr then
      (CreateMcpErrorResponse s ctx0 (NewErrInternalError "cannot get session" none), store)
    else
      let resolved : Option (McpSession × SessionStore) :=
        if t.sessionID = "" then some (CreateSession store freshId)
        else
          match GetSession store t.sessionID with
          | none => none
          | some sess => some (sess, store)
      match resolved with
      | none =>
        (CreateMcpErrorResponse s ctx0 (NewErrInternalError "cannot get session" none), store)
      | some (sess, store1) =>
        let ctx : McpContext := { ctx0 with session := some sess }
        match methodLookup methods mcpReq.method with
        | none => (CreateMcpErrorResponse s ctx (NewErrUnknownMethod mcpReq.method), store1)
        | some h =>
          match h s store1 ctx mcpReq with
          | (.error msg, store2) =>
            (CreateMcpErrorResponse s ctx (NewErrInternalError msg none), store2)
          | (.ok resp, store2) => (resp, store2)

/-! ## Concrete tools used to settle the claims -/

/-- The spec scenario `add(a int, b int) int` (Go addition of two `int`
values wraps at 64 bits). -/
def addImpl : List GoValue → List GoValue
  | [.vInt .int a, .vInt .int b] => [.vInt .int (wrapInt .int (a + b))]
  | _ => []

/-- Registry holding only `add`, registered with parameters `[a, b]`. -/
def addToolMap : ToolMap :=
  (RegisterTool [] "add" "Adds two integers" (.fn [.int, .int] [.int] addImpl)
    [{ name := "a", description := "First integer" },
     { name := "b", description := "Second integer" }]).2

/-- A callable of signature `func() (error, int)` that always returns the
non-nil error `boom` in its first output slot and `7` in its second. -/
def failFirstImpl : List GoValue → List GoValue
  | _ => [.vErr (some "boom"), .vInt .int 7]

/-- Registry holding only `failfirst`. -/
def failFirstMap : ToolMap :=
  (RegisterTool [] "failfirst" "Error before a scalar output"
    (.fn [] [.errIface, .int] failFirstImpl) []).2

/-- A tool whose two non-context parameters share the name `a` (such a
tool is registrable: `RegisterTool` never checks parameter-name
uniqueness). -/
def dupNameTool : McpTool :=
  { name := "t",
    parameters := [{ name := "a", type := McpToolDataTypeNumber },
                   { name := "a", type := McpToolDataTypeString }] }

/-- A tool with a single `number` parameter `a`. -/
def oneParamTool : McpTool :=
  { name := "t",
    parameters := [{ name := "a", type := McpToolDataTypeNumber }] }

/-- The scalar output-type tags of the text-producing switch case in
`CallTool`. -/
def scalarToolOutputType (ty : McpToolDataType) : Prop :=
  ty = McpToolDataTypeString ∨ ty = McpToolDataTypeNumber ∨ ty = McpToolDataTypeBoolean

instance (ty : McpToolDataType) : Decidable (scalarToolOutputType ty) := by
  unfold scalarToolOutputType; infer_instance

/-- Values whose stringification the embedding models exactly (integer,
string and boolean results; float formatting is outside the model). -/
def scalarValue : GoValue → Bool
  | .vInt _ _ => true
  | .vStr _ => true
  | .vBool _ => true
  | _ => false

/-- The non-context parameters of a tool, in declaration order (exactly
the parameters the `ListTools` schema loop and the `MethodToolsCall`
conversion loop do not skip). -/
def nonCtxParams (ps : List McpToolParameter) : List McpToolParameter :=
  ps.filter (fun p => p.type != McpToolDataTypeContext)

/-- The schema property a non-context parameter contributes. -/
def propOf (p : McpToolParameter) : String × McpToolInputSchemaProperty :=
  (p.name, { type := p.type, description := p.description })

/-- The descriptor the `ListTools` loop builds for one tool whose context
parameter (if any) sits at position 0: `type = "object"`, the properties
map folded with Go map assignment over the non-context parameters, and a
required list naming every non-context parameter. -/
def descOf (t : McpTool) : McpToolDescriptor :=
  { name := t.name, description := t.description,
    inputSchema :=
      { type := "object",
        properties :=
          (nonCtxParams t.parameters).foldl
            (fun acc p => propInsert acc p.name
              { type := p.type, description := p.description }) [],
        required := (nonCtxParams t.parameters).map (fun p => p.name) } }

/-- Kinds the registration switches classify as scalar (the integer and
float families, string, and boolean). -/
def supportedScalarKind (k : GoKind) : Prop :=
  numericKind k = true ∨ k = .string ∨ k = .bool

instance (k : GoKind) : Decidable (supportedScalarKind k) := by
  unfold supportedScalarKind; infer_instance

/-- An input type `RegisterTool` cannot accept anywhere: neither scalar
nor a context interface. -/
def unsupportedInputType (t : GoType) : Prop :=
  ¬(supportedScalarKind t.kind ∨ t.implementsContext = true)

instance (t : GoType) : Decidable (unsupportedInputType t) := by
  unfold unsupportedInputType; infer_instance

/-- An output type `RegisterTool` cannot accept: neither scalar nor an
error interface. -/
def unsupportedOutputType (t : GoType) : Prop :=
  ¬(supportedScalarKind t.kind ∨ t.implementsError = true)

instance (t : GoType) : Decidable (unsupportedOutputType t) := by
  unfold unsupportedOutputType; infer_instance

/-- Whether the callable's first input is a call-context type. -/
def firstInputIsContext (ins : List GoType) : Bool :=
  match ins.head? with
  | some t => t.implementsContext
  | none => false

/-- The rejection condition of claim C5, stated in the claim's own terms:
duplicate name, not a function, input arity different from
`len(paramSpecs)` plus one when the first input is a context type (else
exactly `len(paramSpecs)`), a context-typed input at a position other
than 0, or an unsupported input or output kind. -/
def RegisterToolErrorSpec (tools : ToolMap) (name : String)
    (params : List McpToolParameter) : GoCallable → Prop
  | .notFunc => True
  | .fn ins outs _ =>
    (toolLookup tools name).isSome = true ∨
    ins.length ≠ params.length + (if firstInputIsContext ins then 1 else 0) ∨
    (∃ t ∈ ins.drop 1, t.implementsContext = true) ∨
    (∃ t ∈ ins, unsupportedInputType t) ∨
    (∃ t ∈ outs, unsupportedOutputType t)

/-! # Theorems -/

theorem sessLookup_sessInsert_self (store : SessionStore) (k : String) (v : McpSession) :
    sessLookup (sessInsert store k v) k = some v := by
  induction store with
  | nil => simp [sessInsert, sessLookup]
  | cons hd tl ih =>
    obtain ⟨k', s'⟩ := hd
    by_cases h : k' = k <;> simp [sessInsert, sessLookup, h, ih]

/-- Claim C4: on every session, `tools/list` and `tools/call` fail with the
session-not-initialized error while the session's flag is false;
`initialize` and `notifications/initialized` fail with the
session-already-initialized error while it is true; and after a successful
`notifications/initialized` the persisted session has the flag set, so a
second `notifications/initialized` on that session fails with the
already-initialized error. -/
theorem C4_session_handshake_gating
    (s : McpServer) (store : SessionStore) (ctx : McpContext) (req : McpRequest)
    (sess : McpSession) (hsess : ctx.session = some sess) :
    (sess.initialized = false →
      MethodToolsList s store ctx req =
        (.ok (CreateMcpErrorResponse s ctx ErrSessionNotInitialized), store) ∧
      MethodToolsCall s store ctx req =
        (.ok (CreateMcpErrorResponse s ctx ErrSessionNotInitialized), store)) ∧
    (sess.initialized = true →
      MethodInitialize s store ctx req =
        (.ok (CreateMcpErrorResponse s ctx ErrSessionAlreadyInitialized), store) ∧
      MethodNotificationInitialized s store ctx req =
        (.ok (CreateMcpErrorResponse s ctx ErrSessionAlreadyInitialized), store)) ∧
    (sess.initialized = false →
      sessLookup store sess.sessionID = some sess →
      (GetSession (MethodNotificationInitialized s store ctx req).2 sess.sessionID =
        some { sess with initialized := true }) ∧
      (∀ ctx' : McpContext, ctx'.session = some { sess with initialized := true } →
        MethodNotificationInitialized s (MethodNotificationInitialized s store ctx req).2
            ctx' req =
          (.ok (CreateMcpErrorResponse s ctx' ErrSessionAlreadyInitialized),
            (MethodNotificationInitialized s store ctx req).2))) := by
  refine ⟨fun h => ⟨?_, ?_⟩, fun h => ⟨?_, ?_⟩, fun h hlook => ?_⟩
  · simp [MethodToolsList, hsess, h]
  · simp [MethodToolsCall, hsess, h]
  · simp [MethodInitialize, hsess, h]
  · simp [MethodNotificationInitialized, hsess, h]
  · have hstep : MethodNotificationInitialized s store ctx req =
        (CreateMcpResponse s ctx none,
          sessInsert store sess.sessionID { sess with initialized := true }) := by
      simp [MethodNotificationInitialized, hsess, h, SetSessionInitialized, hlook]
    refine ⟨?_, fun ctx' hctx' => ?_⟩
    · rw [hstep]
      simpa [GetSession] using sessLookup_sessInsert_self store sess.sessionID _
    · rw [hstep]
      simp [MethodNotificationInitialized, hctx']

/-- Claim C8: on a not-yet-initialized session, `initialize` answers with
a success payload whose prompts / resources / tools capability blocks are
present exactly when the corresponding registered collection is
non-empty, and it leaves the session store untouched (it never calls
`SetSessionInitialized`). -/
theorem C8_initialize_capability_blocks
    (s : McpServer) (store : SessionStore) (ctx : McpContext) (req : McpRequest)
    (sess : McpSession) (rid : String)
    (hsess : ctx.session = some sess) (hinit : sess.initialized = false)
    (hrid : ctx.requestID = some rid) :
    ∃ p : McpInitializeResponse,
      MethodInitialize s store ctx req =
        (.ok { jsonrpc := s.jsonRPC, id := rid, results := some (.initR p), error := none },
          store) ∧
      (p.capabilities.prompts.isSome ↔ s.prompts ≠ []) ∧
      (p.capabilities.resources.isSome ↔ s.resources ≠ []) ∧
      (p.capabilities.tools.isSome ↔ s.tools ≠ []) := by
  refine ⟨{ protocolVersion := s.protocolVersion,
            capabilities :=
              { logging := if s.logging then some () else none,
                prompts := if s.prompts.length > 0 then some { listChanged := false } else none,
                resources :=
                  if s.resources.length > 0 then
                    some { listChanged := false, subscribe := false }
                  else none,
                tools := if s.tools.length > 0 then some { listChanged := false } else none },
            serverInfo := { name := s.name, version := s.version },
            instructions := s.instructions }, ?_, ?_, ?_, ?_⟩
  · simp [MethodInitialize, hsess, hinit, CreateMcpResponse, hrid]
  · by_cases hp : s.prompts = [] <;>
      simp [hp, List.length_pos, ← List.length_pos_iff_ne_nil]
  · by_cases hp : s.resources = [] <;>
      simp [hp, List.length_pos, ← List.length_pos_iff_ne_nil]
  · by_cases hp : s.tools = [] <;>
      simp [hp, List.length_pos, ← List.length_pos_iff_ne_nil]

/-- Concrete instantiation of `C4_session_handshake_gating`. -/
theorem C4_witness :
    MethodToolsList {} [("S", { sessionID := "S" })]
        { requestID := some "1", session := some { sessionID := "S" } } {} =
      (.ok (CreateMcpErrorResponse {}
        { requestID := some "1", session := some { sessionID := "S" } }
        ErrSessionNotInitialized), [("S", { sessionID := "S" })]) ∧
    GetSession (MethodNotificationInitialized {} [("S", { sessionID := "S" })]
        { requestID := some "1", session := some { sessionID := "S" } } {}).2 "S" =
      some { sessionID := "S", initialized := true } := by
  have h := C4_session_handshake_gating ({} : McpServer) [("S", { sessionID := "S" })]
    { requestID := some "1", session := some { sessionID := "S" } } {}
    { sessionID := "S" } rfl
  exact ⟨(h.1 rfl).1, (h.2.2 rfl rfl).1⟩

/-- Concrete instantiation of `C8_initialize_capability_blocks` (one tool
registered, no prompts, no resources). -/
theorem C8_witness :
    ∃ p : McpInitializeResponse,
      MethodInitialize { tools := [("t", {})] } []
          { requestID := some "1", session := some { sessionID := "S" } } {} =
        (.ok { jsonrpc := "2.0", id := "1", results := some (.initR p), error := none }, []) ∧
      (p.capabilities.prompts.isSome ↔ ([] : List Unit) ≠ []) ∧
      (p.capabilities.resources.isSome ↔ ([] : List Unit) ≠ []) ∧
      (p.capabilities.tools.isSome ↔ ([("t", {})] : ToolMap) ≠ []) :=
  C8_initialize_capability_blocks { tools := [("t", {})] } []
    { requestID := some "1", session := some { sessionID := "S" } } {}
    { sessionID := "S" } "1" rfl rfl rfl

/-- Claim C9 fails on the code: the empty-result success of
`notifications/initialized` carries a nil result and a nil error, and
`omitempty` drops both keys, so the serialized envelope contains neither
`result` nor `error` — not exactly one of them. -/
theorem C9_counterexample :
    (MethodNotificationInitialized {} [("S", { sessionID := "S" })]
        { requestID := some "7", session := some { sessionID := "S" } } {}).1 =
      .ok { jsonrpc := "2.0", id := "7", results := none, error := none } ∧
    responseKeys { jsonrpc := "2.0", id := "7", results := none, error := none } =
      ["jsonrpc", "id"] ∧
    "result" ∉ responseKeys { jsonrpc := "2.0", id := "7", results := none, error := none } ∧
    "error" ∉ responseKeys { jsonrpc := "2.0", id := "7", results := none, error := none } :=
  ⟨rfl, rfl, by decide, by decide⟩

/-- Claim C9 (amended): a response envelope never serializes with both
`result` and `error`; an error envelope has `error` and no `result`; a
success envelope has no `error` and has `result` exactly when the handler
supplied a non-nil result — the empty success of
`notifications/initialized` has neither key. -/
theorem C9_amended_response_envelope :
    (∀ (s : McpServer) (ctx : McpContext) (r : Option McpResult) (resp : McpResponse),
      CreateMcpResponse s ctx r = .ok resp →
        resp.error = none ∧ resp.results = r ∧
        ("result" ∈ responseKeys resp ↔ r.isSome) ∧
        "error" ∉ responseKeys resp ∧
        ¬("result" ∈ responseKeys resp ∧ "error" ∈ responseKeys resp)) ∧
    (∀ (s : McpServer) (ctx : McpContext) (e : McpError),
      (CreateMcpErrorResponse s ctx e).error = some e ∧
      (CreateMcpErrorResponse s ctx e).results = none ∧
      "error" ∈ responseKeys (CreateMcpErrorResponse s ctx e) ∧
      "result" ∉ responseKeys (CreateMcpErrorResponse s ctx e)) := by
  constructor
  · intro s ctx r resp h
    unfold CreateMcpResponse at h
    cases hb : ctx.requestID with
    | none => rw [hb] at h; cases h
    | some rid =>
      rw [hb] at h
      cases h
      cases r <;> simp [responseKeys]
  · intro s ctx e
    simp [CreateMcpErrorResponse, responseKeys]

/-- Concrete instantiation of `C9_amended_response_envelope`. -/
theorem C9_witness :
    ({ jsonrpc := "2.0", id := "1", results := none, error := none } : McpResponse).error =
        none ∧
    ({ jsonrpc := "2.0", id := "1", results := none, error := none } : McpResponse).results =
        (none : Option McpResult) ∧
    ("result" ∈ responseKeys { jsonrpc := "2.0", id := "1", results := none, error := none } ↔
      (none : Option McpResult).isSome) ∧
    "error" ∉ responseKeys { jsonrpc := "2.0", id := "1", results := none, error := none } ∧
    ¬("result" ∈ responseKeys { jsonrpc := "2.0", id := "1", results := none, error := none } ∧
      "error" ∈ responseKeys { jsonrpc := "2.0", id := "1", results := none, error := none }) :=
  C9_amended_response_envelope.1 {} { requestID := some "1" } none
    { jsonrpc := "2.0", id := "1", results := none, error := none } rfl

/-- Claim C10: a non-empty session id unknown to the store makes
`ProcessRequest` answer the `InternalError` (-32603) response
`cannot get session` with the store untouched and no method dispatched
(the outcome is the same for every method table); and a new session can
only ever be created when the transport-supplied session id is absent
(the outcome is independent of the fresh UUID whenever the id is
non-empty). -/
theorem C10_unknown_session_rejected :
    (∀ (s : McpServer) (methods : List (String × MethodHandler)) (store : SessionStore)
        (t : TransportInput) (freshId : String) (mcpReq : McpRequest),
      t.request = .ok mcpReq →
      t.sessionID ≠ "" →
      (t.sessionIDErr = none ∨ t.sessionIDErr = some ErrNoSessionHeader) →
      GetSession store t.sessionID = none →
      ProcessRequest s methods store t freshId =
        (CreateMcpErrorResponse s { requestID := some mcpReq.id }
          (NewErrInternalError "cannot get session" none), store)) ∧
    (∀ (s : McpServer) (methods : List (String × MethodHandler)) (store : SessionStore)
        (t : TransportInput) (id1 id2 : String),
      t.sessionID ≠ "" →
      ProcessRequest s methods store t id1 = ProcessRequest s methods store t id2) := by
  constructor
  · intro s methods store t freshId mcpReq hreq hsid herr hget
    rcases herr with herr | herr <;>
      simp [ProcessRequest, hreq, herr, hsid, hget]
  · intro s methods store t id1 id2 hsid
    cases hreq : t.request with
    | error e => simp [ProcessRequest, hreq]
    | ok mcpReq => simp [ProcessRequest, hreq, hsid]

/-- Concrete instantiation of `C10_unknown_session_rejected`: a request
carrying the unknown session id `B` against a store that only contains
`A`, using the default method table. -/
theorem C10_witness :
    ProcessRequest {} defaultMethods [("A", { sessionID := "A" })]
        { request := .ok { id := "9", method := "tools/list" }, sessionID := "B" } "F" =
      (CreateMcpErrorResponse {} { requestID := some "9" }
        (NewErrInternalError "cannot get session" none), [("A", { sessionID := "A" })]) ∧
    ProcessRequest {} defaultMethods [("A", { sessionID := "A" })]
        { request := .ok { id := "9", method := "tools/list" }, sessionID := "B" } "F" =
      ProcessRequest {} defaultMethods [("A", { sessionID := "A" })]
        { request := .ok { id := "9", method := "tools/list" }, sessionID := "B" } "G" :=
  ⟨C10_unknown_session_rejected.1 {} defaultMethods [("A", { sessionID := "A" })]
      { request := .ok { id := "9", method := "tools/list" }, sessionID := "B" } "F"
      { id := "9", method := "tools/list" } rfl (by decide) (Or.inl rfl) rfl,
    C10_unknown_session_rejected.2 {} defaultMethods [("A", { sessionID := "A" })]
      { request := .ok { id := "9", method := "tools/list" }, sessionID := "B" } "F" "G"
      (by decide)⟩

theorem buildOutput_scalar (name : String) :
    ∀ (pairs : List (McpToolParameter × GoValue)) (i : Nat) (acc : List McpToolOutput),
      (∀ ov ∈ pairs, scalarToolOutputType ov.1.type ∧ ov.1.kind = ov.2.kind) →
      buildOutput name pairs i acc =
        .ok (acc ++ pairs.map (fun ov => { type := .text, text := goSprint ov.2 })) := by
  intro pairs
  induction pairs with
  | nil => intro i acc _; simp [buildOutput]
  | cons hd tl ih =>
    intro i acc h
    obtain ⟨o, v⟩ := hd
    have hov := h (o, v) (List.mem_cons_self _ _)
    have hkind : o.kind = v.kind := hov.2
    have hty : o.type = McpToolDataTypeString ∨ o.type = McpToolDataTypeNumber ∨
        o.type = McpToolDataTypeBoolean := hov.1
    have htl := fun ov hov => h ov (List.mem_cons_of_mem _ hov)
    have hrec := ih (i + 1) (acc ++ [{ type := .text, text := goSprint v }]) htl
    unfold buildOutput
    rcases hty with hty | hty | hty <;>
      simp [hkind, hty, McpToolDataTypeString, McpToolDataTypeNumber, McpToolDataTypeBoolean,
        hrec]

/-- On a tool all of whose declared outputs are scalar-tagged, a
successful generic invocation whose returned values are integers,
strings or booleans yields exactly one `text` output per return value,
in declaration order, each carrying the stringification of the value
(the exact decimal rendering for integer values). Float-valued returns
are excluded by the `scalarValue` hypothesis: their stringification is
IEEE-754 shortest round-trip formatting, which this embedding does not
model. -/
theorem callTool_intStrBool_scalar_outputs
    (tools : ToolMap) (name : String) (tool : McpTool)
    (ins outs : List GoType) (impl : List GoValue → List GoValue)
    (callArgs checked vals : List GoValue) (off : Nat)
    (hlook : toolLookup tools name = some tool)
    (hfn : tool.function = some (.fn ins outs impl))
    (hoff : off = (match tool.parameters.head? with
      | some p => if p.type = McpToolDataTypeContext then 1 else 0
      | none => 0))
    (hargs : checkArgs name callArgs tool.parameters 0 off = .ok checked)
    (hvals : impl ((if off = 1 then [GoValue.vCtx] else []) ++ checked) = vals)
    (hlen : vals.length = tool.output.length)
    (hsc : ∀ ov ∈ tool.output.zip vals,
      scalarToolOutputType ov.1.type ∧ ov.1.kind = ov.2.kind ∧ scalarValue ov.2 = true) :
    CallTool tools name callArgs =
      .ok (vals.map (fun v => { type := .text, text := goSprint v })) ∧
    (∀ v ∈ vals, ∀ k n, v = .vInt k n → goSprint v = toString n) := by
  constructor
  · have hmap := buildOutput_scalar name (tool.output.zip vals) 0 []
      (fun ov hov => ⟨(hsc ov hov).1, (hsc ov hov).2.1⟩)
    have hzip : (tool.output.zip vals).map
        (fun ov => ({ type := .text, text := goSprint ov.2 } : McpToolOutput)) =
        vals.map (fun v => { type := .text, text := goSprint v }) := by
      have := List.map_snd_zip tool.output vals (by omega)
      calc (tool.output.zip vals).map
            (fun ov => ({ type := .text, text := goSprint ov.2 } : McpToolOutput))
          = ((tool.output.zip vals).map Prod.snd).map
              (fun v => ({ type := .text, text := goSprint v } : McpToolOutput)) := by
            rw [List.map_map]; rfl
        _ = vals.map (fun v => { type := .text, text := goSprint v }) := by rw [this]
    simp only [CallTool, hlook, hfn, ← hoff, hargs, hvals, hlen]
    simp [hmap, hzip]
  · intro v _ k n hv
    subst hv
    rfl

/-- Concrete instantiation of `callTool_intStrBool_scalar_outputs`: the
spec scenario — calling `add` with `2` and `3` yields exactly
`[(text, "5")]`. -/
theorem callTool_add_scenario :
    CallTool addToolMap "add" [.vInt .int 2, .vInt .int 3] =
      .ok [{ type := .text, text := "5" }] := by
  have h := callTool_intStrBool_scalar_outputs addToolMap "add"
    { name := "add", description := "Adds two integers",
      function := some (.fn [.int, .int] [.int] addImpl),
      parameters :=
        [{ name := "a", description := "First integer", type := McpToolDataTypeNumber,
           kind := .int },
         { name := "b", description := "Second integer", type := McpToolDataTypeNumber,
           kind := .int }],
      output := [{ name := "out0", type := McpToolDataTypeNumber, kind := .int }] }
    [.int, .int] [.int] addImpl
    [.vInt .int 2, .vInt .int 3] [.vInt .int 2, .vInt .int 3] [.vInt .int 5] 0
    rfl rfl rfl rfl rfl rfl (by decide)
  exact h.1

/-- Claim C1 fails as stated on the code: with a non-nil error in the
first output slot of a `(error, int)` output list, `CallTool` returns the
error entry *and* the text entry of the output declared after it — the
`break` in the source only leaves the `switch`, so later outputs are
appended after the reset. The intended behavior (spec: the error
"short-circuits success content" to a single entry; source comment:
"Reset the output to one single error message") holds only for outputs
accumulated before the error slot. -/
theorem C1_error_not_short_circuited :
    CallTool failFirstMap "failfirst" [] =
      .ok [{ type := .error, text := "boom" }, { type := .text, text := "7" }] ∧
    ((CallTool failFirstMap "failfirst" []).toOption.getD []).length = 2 :=
  ⟨rfl, rfl⟩

/-- Claim C3 fails as stated on the code: with an initialized session and
a registered tool `t`, a `tools/call` whose `arguments` entry is the
number `5` (not an object) is answered with the `-32600`
(`InvalidRequest`) error `arguments is not object`, not with a `-32602`
(`InvalidParams`) error. -/
theorem C3_counterexample :
    (MethodToolsCall { tools := [("t", {})] } []
        { requestID := some "1", session := some { sessionID := "S", initialized := true } }
        { params := .obj [("name", .str "t"), ("arguments", .num "5")] }).1 =
      .ok (CreateMcpErrorResponse { tools := [("t", {})] }
        { requestID := some "1", session := some { sessionID := "S", initialized := true } }
        (NewMcpError ErrInvalidRequestCode "arguments is not object" none)) ∧
    (NewMcpError ErrInvalidRequestCode "arguments is not object" none).code = -32600 ∧
    ErrInvalidRequestCode ≠ ErrInvalidParametersCode :=
  ⟨rfl, rfl, by decide⟩

/-- Claim C3 (amended): on an initialized session, `tools/call` fails
with a `-32602` (`InvalidParams`) error when `params` is not an object or
when `name` is missing or not a string; when the named tool exists and an
`arguments` entry is present but is not an object, it fails with the
`-32600` (`InvalidRequest`) error `arguments is not object` instead. -/
theorem C3_amended_invalid_params
    (s : McpServer) (store : SessionStore) (ctx : McpContext) (req : McpRequest)
    (sess : McpSession)
    (hsess : ctx.session = some sess) (hinit : sess.initialized = true) :
    ((∀ fields, req.params ≠ Json.obj fields) →
      MethodToolsCall s store ctx req =
        (.ok (CreateMcpErrorResponse s ctx ErrInvalidMcpRequestParameters), store)) ∧
    (∀ fields, req.params = Json.obj fields →
      (jsonLookup fields "name" = none →
        MethodToolsCall s store ctx req =
          (.ok (CreateMcpErrorResponse s ctx
            (NewMcpError ErrInvalidParametersCode "missing tool name" none)), store)) ∧
      (∀ v, jsonLookup fields "name" = some v → (∀ str, v ≠ Json.str str) →
        MethodToolsCall s store ctx req =
          (.ok (CreateMcpErrorResponse s ctx
            (NewMcpError ErrInvalidParametersCode "invalid tool name" none)), store)) ∧
      (∀ tn tool a, jsonLookup fields "name" = some (Json.str tn) →
        toolLookup s.tools tn = some tool →
        jsonLookup fields "arguments" = some a → (∀ flds, a ≠ Json.obj flds) →
        MethodToolsCall s store ctx req =
          (.ok (CreateMcpErrorResponse s ctx
            (NewMcpError ErrInvalidRequestCode "arguments is not object" none)), store))) ∧
    ErrInvalidMcpRequestParameters.code = ErrInvalidParametersCode := by
  refine ⟨fun hobj => ?_, fun fields hfields => ⟨fun hname => ?_, fun v hv hvstr => ?_,
    fun tn tool a htn htool ha haobj => ?_⟩, rfl⟩
  · cases hp : req.params <;>
      simp [MethodToolsCall, hsess, hinit, hp] <;>
      exact absurd rfl (hp ▸ hobj _)
  · simp [MethodToolsCall, hsess, hinit, hfields, hname]
  · cases hvc : v <;>
      simp [MethodToolsCall, hsess, hinit, hfields, hv, hvc] <;>
      exact absurd rfl (hvc ▸ hvstr _)
  · cases hac : a <;>
      simp [MethodToolsCall, hsess, hinit, hfields, htn, htool, ha, hac] <;>
      exact absurd rfl (hac ▸ haobj _)

/-- Concrete instantiation of `C3_amended_invalid_params`: `params` that
is a bare string is answered with the `-32602` `invalid params` error. -/
theorem C3_witness :
    MethodToolsCall {} []
        { requestID := some "1", session := some { sessionID := "S", initialized := true } }
        { params := .str "oops" } =
      (.ok (CreateMcpErrorResponse {}
        { requestID := some "1", session := some { sessionID := "S", initialized := true } }
        ErrInvalidMcpRequestParameters), []) :=
  (C3_amended_invalid_params {} []
    { requestID := some "1", session := some { sessionID := "S", initialized := true } }
    { params := .str "oops" } { sessionID := "S", initialized := true } rfl rfl).1
    (fun _ h => Json.noConfusion h)

/-- Claim C2 fails as stated on the code: for a `uint8` parameter the
wire literal `300` is inside the int64 range (so `Int64` parses it) and
is *accepted*, but the truncating cast `uint8(300)` stores `44` — the
conversion is not lossless and the out-of-kind-range literal is not
rejected. -/
theorem C2_counterexample :
    coerceArg { name := "a", type := McpToolDataTypeNumber, kind := .uint8 }
        (Json.num "300") = .ok (.vInt .uint8 44) ∧
    goParseInt64 "300" = some 300 ∧
    (44 : Int) ≠ 300 :=
  ⟨rfl, rfl, by decide⟩

/-- Claim C2 (amended): numeric kinds accept only `json.Number` wire
values; an integer kind parses the literal as a base-10 `int64`
(non-integer or out-of-int64-range literals fail with the
`InvalidArgumentType` error, code `-32602`) and converts the parsed value
by a truncating cast modulo `2^width` — lossless exactly when the value
fits the kind's range, so in-int64-range values outside the kind's range
wrap instead of failing; a float kind requires a successful `float64`
parse; string and boolean kinds require an exact wire-type match or fail
with the same error. -/
theorem C2_amended_argument_coercion (p : McpToolParameter) (val : Json) :
    (p.kind.isIntKind = true →
      ((∀ lit, val ≠ Json.num lit) →
        coerceArg p val = .error (NewErrInvalidArgumentType p.name p.type)) ∧
      (∀ lit, val = Json.num lit →
        (goParseInt64 lit = none →
          coerceArg p val = .error (NewErrInvalidArgumentType p.name p.type)) ∧
        (∀ v, goParseInt64 lit = some v →
          coerceArg p val = .ok (.vInt p.kind (wrapInt p.kind v)) ∧
          (fitsKind p.kind v ↔ wrapInt p.kind v = v)))) ∧
    (p.kind.isFloatKind = true →
      ((∀ lit, val ≠ Json.num lit) →
        coerceArg p val = .error (NewErrInvalidArgumentType p.name p.type)) ∧
      (∀ lit, val = Json.num lit →
        (goParseFloat64Ok lit = false →
          coerceArg p val = .error (NewErrInvalidArgumentType p.name p.type)) ∧
        (goParseFloat64Ok lit = true → coerceArg p val = .ok (.vFloat p.kind lit)))) ∧
    (p.kind = .string →
      ((∀ str, val ≠ Json.str str) →
        coerceArg p val = .error (NewErrInvalidArgumentType p.name p.type)) ∧
      (∀ str, val = Json.str str → coerceArg p val = .ok (.vStr str))) ∧
    (p.kind = .bool →
      ((∀ b, val ≠ Json.jbool b) →
        coerceArg p val = .error (NewErrInvalidArgumentType p.name p.type)) ∧
      (∀ b, val = Json.jbool b → coerceArg p val = .ok (.vBool b))) ∧
    (NewErrInvalidArgumentType p.name p.type).code = ErrInvalidParametersCode := by
  refine ⟨fun hint => ⟨fun hnum => ?_, fun lit hlit => ⟨fun hparse => ?_,
      fun v hv => ⟨?_, Iff.rfl⟩⟩⟩,
    fun hfloat => ⟨fun hnum => ?_, fun lit hlit => ⟨fun hparse => ?_, fun hparse => ?_⟩⟩,
    fun hstr => ⟨fun hns => ?_, fun str hs => ?_⟩,
    fun hbool => ⟨fun hnb => ?_, fun b hb => ?_⟩, rfl⟩
  · cases hv : val <;> simp [coerceArg, hint, hv] <;> exact absurd rfl (hv ▸ hnum _)
  · subst hlit; simp [coerceArg, hint, hparse]
  · subst hlit; simp [coerceArg, hint, hv]
  · have hi : p.kind.isIntKind = false := by
      cases hk : p.kind <;> simp_all [GoKind.isIntKind, GoKind.isFloatKind]
    cases hv : val <;> simp [coerceArg, hi, hfloat, hv] <;> exact absurd rfl (hv ▸ hnum _)
  · have hi : p.kind.isIntKind = false := by
      cases hk : p.kind <;> simp_all [GoKind.isIntKind, GoKind.isFloatKind]
    subst hlit; simp [coerceArg, hi, hfloat, hparse]
  · have hi : p.kind.isIntKind = false := by
      cases hk : p.kind <;> simp_all [GoKind.isIntKind, GoKind.isFloatKind]
    subst hlit; simp [coerceArg, hi, hfloat, hparse]
  · cases hv : val <;>
      simp [coerceArg, hstr, GoKind.isIntKind, GoKind.isFloatKind, hv] <;>
      exact absurd rfl (hv ▸ hns _)
  · subst hs; simp [coerceArg, hstr, GoKind.isIntKind, GoKind.isFloatKind]
  · cases hv : val <;>
      simp [coerceArg, hbool, GoKind.isIntKind, GoKind.isFloatKind, hv] <;>
      exact absurd rfl (hv ▸ hnb _)
  · subst hb; simp [coerceArg, hbool, GoKind.isIntKind, GoKind.isFloatKind]

/-- Concrete instantiation of `C2_amended_argument_coercion`: an `int`
parameter rejects a string wire value and accepts the literal `5` as the
wrapped (here: unchanged) value `5`. -/
theorem C2_witness :
    coerceArg { name := "a", type := McpToolDataTypeNumber, kind := .int } (Json.str "x") =
      .error (NewErrInvalidArgumentType "a" McpToolDataTypeNumber) ∧
    coerceArg { name := "a", type := McpToolDataTypeNumber, kind := .int } (Json.num "5") =
      .ok (.vInt .int (wrapInt .int 5)) :=
  ⟨((C2_amended_argument_coercion
      { name := "a", type := McpToolDataTypeNumber, kind := .int } (Json.str "x")).1
      rfl).1 (fun _ h => Json.noConfusion h),
    (((C2_amended_argument_coercion
      { name := "a", type := McpToolDataTypeNumber, kind := .int } (Json.num "5")).1
      rfl).2 "5" rfl).2 5 (by decide) |>.1⟩

set_option maxRecDepth 8000 in
/-- `strconv.ParseFloat` treats only overflow as a range error: the tiny
literal `1e-400` (which Go parses to 0 with a nil error) is accepted by
the float coercion, while the overflowing `1e400` is rejected. -/
theorem coerceArg_float_underflow_accepted :
    coerceArg { name := "a", type := McpToolDataTypeNumber, kind := .float64 }
        (Json.num "1e-400") = .ok (.vFloat .float64 "1e-400") ∧
    coerceArg { name := "a", type := McpToolDataTypeNumber, kind := .float64 }
        (Json.num "1e400") =
      .error (NewErrInvalidArgumentType "a" McpToolDataTypeNumber) :=
  ⟨rfl, rfl⟩

theorem exceptMap_ok_iff {ε α β : Type} {e : Except ε α} {f : α → β} :
    (∃ y, e.map f = .ok y) ↔ (∃ x, e = .ok x) := by
  cases e <;> simp [Except.map]

theorem regInputs_ok_of_pos (params : List McpToolParameter) (off : Nat) :
    ∀ (ins : List GoType) (i : Nat), 1 ≤ i →
      ((∃ ps, regInputs params off ins i = .ok ps) ↔
        ∀ t ∈ ins, supportedScalarKind t.kind) := by
  intro ins
  induction ins with
  | nil => intro i _; simp [regInputs]
  | cons arg rest ih =>
    intro i hi
    have hrest := ih (i + 1) (by omega)
    have hne : i ≠ 0 := by omega
    cases arg <;>
      simp [regInputs, hne, supportedScalarKind, numericKind, GoKind.isIntKind,
        GoKind.isFloatKind, GoType.kind, GoType.implementsContext, exceptMap_ok_iff, hrest]

theorem scalarKind_char (t : GoType) :
    supportedScalarKind t.kind ↔ (t.implementsContext = false ∧ ¬unsupportedInputType t) := by
  cases t <;>
    simp [supportedScalarKind, numericKind, GoKind.isIntKind, GoKind.isFloatKind,
      GoType.kind, GoType.implementsContext, unsupportedInputType]

theorem forall_scalar_iff (rest : List GoType) :
    (∀ t ∈ rest, supportedScalarKind t.kind) ↔
      ¬((∃ t ∈ rest, t.implementsContext = true) ∨ (∃ t ∈ rest, unsupportedInputType t)) := by
  rw [not_or]
  constructor
  · intro h
    push_neg
    refine ⟨fun t ht => ?_, fun t ht => ?_⟩
    · have := ((scalarKind_char t).mp (h t ht)).1
      simp [this]
    · exact ((scalarKind_char t).mp (h t ht)).2
  · intro h t ht
    push_neg at h
    exact (scalarKind_char t).mpr ⟨by simpa using h.1 t ht, h.2 t ht⟩

theorem regInputs_ok_zero (params : List McpToolParameter) (off : Nat) (ins : List GoType) :
    (∃ ps, regInputs params off ins 0 = .ok ps) ↔
      ¬((∃ t ∈ ins.drop 1, t.implementsContext = true) ∨
        (∃ t ∈ ins, unsupportedInputType t)) := by
  cases ins with
  | nil => simp [regInputs]
  | cons arg rest =>
    have hfa' := (regInputs_ok_of_pos params off rest 1 (by omega)).trans
      (forall_scalar_iff rest)
    cases arg <;>
      simp [regInputs, exceptMap_ok_iff, hfa', unsupportedInputType, supportedScalarKind,
        numericKind, GoKind.isIntKind, GoKind.isFloatKind, GoType.kind,
        GoType.implementsContext, not_or] <;>
      tauto

theorem regOutputs_ok_iff :
    ∀ (outs : List GoType) (i : Nat),
      (∃ os, regOutputs outs i = .ok os) ↔
        ∀ t ∈ outs, ¬unsupportedOutputType t := by
  intro outs
  induction outs with
  | nil => intro i; simp [regOutputs]
  | cons out rest ih =>
    intro i
    have hrest := ih (i + 1)
    cases out <;>
      simp [regOutputs, unsupportedOutputType, supportedScalarKind, numericKind,
        GoKind.isIntKind, GoKind.isFloatKind, GoType.kind, GoType.implementsError,
        exceptMap_ok_iff, hrest]

/-- Claim C5: `RegisterTool` fails exactly when the name is a duplicate,
the callable is not a function, the input arity mismatches
(`len(paramSpecs)` plus one iff the first input is a context type), a
context-typed input sits at a position other than 0, or some input or
output kind is unsupported; and every failure leaves the tool map
unchanged — in particular a duplicate registration never overwrites the
existing entry. -/
theorem C5_register_tool_rejections
    (tools : ToolMap) (name description : String) (c : GoCallable)
    (params : List McpToolParameter) :
    ((RegisterTool tools name description c params).1.isSome ↔
      RegisterToolErrorSpec tools name params c) ∧
    ((RegisterTool tools name description c params).1.isSome →
      (RegisterTool tools name description c params).2 = tools) := by
  by_cases hdup : (toolLookup tools name).isSome = true
  · have hLHS : (RegisterTool tools name description c params).1.isSome = true := by
      cases c <;> simp [RegisterTool, hdup]
    have hMap : (RegisterTool tools name description c params).2 = tools := by
      cases c <;> simp [RegisterTool, hdup]
    refine ⟨iff_of_true hLHS ?_, fun _ => hMap⟩
    cases c with
    | notFunc => trivial
    | fn ins outs impl => exact Or.inl hdup
  · have hdup' : (toolLookup tools name).isSome = false := by simpa using hdup
    cases c with
    | notFunc =>
      refine ⟨iff_of_true (by simp [RegisterTool, hdup']) trivial,
        fun _ => by simp [RegisterTool, hdup']⟩
    | fn ins outs impl =>
      have hoffeq : (match ins.head? with
          | some t => if t.implementsContext then 1 else 0
          | none => 0) = (if firstInputIsContext ins then 1 else 0) := by
        cases ins with
        | nil => simp [firstInputIsContext]
        | cons a r => cases ha : a.implementsContext <;> simp [firstInputIsContext, ha]
      by_cases harity :
          ins.length = params.length + (if firstInputIsContext ins then 1 else 0)
      · cases hri : regInputs params (if firstInputIsContext ins then 1 else 0) ins 0 with
        | error e =>
          have hno : ¬∃ ps, regInputs params (if firstInputIsContext ins then 1 else 0)
              ins 0 = .ok ps := by simp [hri]
          have hbad := (not_iff_not.mpr
            (regInputs_ok_zero params (if firstInputIsContext ins then 1 else 0) ins)).mp hno
          rw [not_not] at hbad
          have hLHS : (RegisterTool tools name description (.fn ins outs impl) params).1 =
              some e := by
            simp [RegisterTool, hdup', hoffeq, harity, hri]
          have hMap : (RegisterTool tools name description (.fn ins outs impl) params).2 =
              tools := by
            simp [RegisterTool, hdup', hoffeq, harity, hri]
          refine ⟨iff_of_true (by simp [hLHS]) ?_, fun _ => hMap⟩
          rcases hbad with h | h
          · exact Or.inr (Or.inr (Or.inl h))
          · exact Or.inr (Or.inr (Or.inr (Or.inl h)))
        | ok ps =>
          have hgood := (regInputs_ok_zero params
            (if firstInputIsContext ins then 1 else 0) ins).mp ⟨ps, hri⟩
          cases hro : regOutputs outs 0 with
          | error e =>
            have hno : ¬∃ os, regOutputs outs 0 = .ok os := by simp [hro]
            have hbad := (not_iff_not.mpr (regOutputs_ok_iff outs 0)).mp hno
            push_neg at hbad
            obtain ⟨t, ht, hbt⟩ := hbad
            have hLHS : (RegisterTool tools name description (.fn ins outs impl) params).1 =
                some e := by
              simp [RegisterTool, hdup', hoffeq, harity, hri, hro]
            have hMap : (RegisterTool tools name description (.fn ins outs impl) params).2 =
                tools := by
              simp [RegisterTool, hdup', hoffeq, harity, hri, hro]
            refine ⟨iff_of_true (by simp [hLHS]) ?_, fun _ => hMap⟩
            exact Or.inr (Or.inr (Or.inr (Or.inr ⟨t, ht, hbt⟩)))
          | ok os =>
            have hgoodo := (regOutputs_ok_iff outs 0).mp ⟨os, hro⟩
            have hLHS : (RegisterTool tools name description (.fn ins outs impl) params).1 =
                none := by
              simp [RegisterTool, hdup', hoffeq, harity, hri, hro]
            refine ⟨iff_of_false (by simp [hLHS]) ?_, fun h => absurd h (by simp [hLHS])⟩
            intro hspec
            simp only [RegisterToolErrorSpec] at hspec
            rcases hspec with h | h | h | h | h
            · rw [hdup'] at h; cases h
            · exact h harity
            · exact hgood (Or.inl h)
            · exact hgood (Or.inr h)
            · obtain ⟨t, ht, hbt⟩ := h
              exact (hgoodo t ht) hbt
      · have hLHS : (RegisterTool tools name description (.fn ins outs impl) params).1 =
            some "parameter count does not match the number of tool parameters" := by
          simp [RegisterTool, hdup', hoffeq, harity]
        have hMap : (RegisterTool tools name description (.fn ins outs impl) params).2 =
            tools := by
          simp [RegisterTool, hdup', hoffeq, harity]
        refine ⟨iff_of_true (by simp [hLHS]) ?_, fun _ => hMap⟩
        exact Or.inr (Or.inl harity)

/-- Concrete instantiation of `C5_register_tool_rejections`: registering
under an already-taken name fails and leaves the registry unchanged. -/
theorem C5_witness :
    (RegisterTool [("add",
        { name := "add", function := some (.fn [.int] [.int] addImpl) })]
      "add" "again" (.fn [.int] [.int] addImpl) [{ name := "a" }]).1.isSome ∧
    (RegisterTool [("add",
        { name := "add", function := some (.fn [.int] [.int] addImpl) })]
      "add" "again" (.fn [.int] [.int] addImpl) [{ name := "a" }]).2 =
      [("add", { name := "add", function := some (.fn [.int] [.int] addImpl) })] := by
  have h := C5_register_tool_rejections
    [("add", { name := "add", function := some (.fn [.int] [.int] addImpl) })]
    "add" "again" (.fn [.int] [.int] addImpl) [{ name := "a" }]
  have hs : (RegisterTool [("add",
      { name := "add", function := some (.fn [.int] [.int] addImpl) })]
      "add" "again" (.fn [.int] [.int] addImpl) [{ name := "a" }]).1.isSome :=
    h.1.mpr (Or.inl rfl)
  exact ⟨hs, h.2 hs⟩

theorem buildSchema_msg :
    ∀ (ps : List McpToolParameter) (i : Nat) props req,
      (∃ x, buildSchema ps i props req = .ok x) ∨
        buildSchema ps i props req = .error "context.Context must be the first parameter" := by
  intro ps
  induction ps with
  | nil => intro i props req; exact Or.inl ⟨_, rfl⟩
  | cons p rest ih =>
    intro i props req
    by_cases hc : p.type = McpToolDataTypeContext
    · by_cases hi : i = 0
      · subst hi; simpa [buildSchema, hc] using ih 1 props req
      · simp [buildSchema, hc, hi]
    · simpa [buildSchema, hc] using ih (i + 1) _ _

theorem buildSchema_bad_pos :
    ∀ (ps : List McpToolParameter) (i : Nat) props req, 1 ≤ i →
      (∃ p ∈ ps, p.type = McpToolDataTypeContext) →
      buildSchema ps i props req = .error "context.Context must be the first parameter" := by
  intro ps
  induction ps with
  | nil => intro i _ _ _ h; simp at h
  | cons p rest ih =>
    intro i props req hi hbad
    by_cases hc : p.type = McpToolDataTypeContext
    · have : i ≠ 0 := by omega
      simp [buildSchema, hc, this]
    · have : ∃ q ∈ rest, q.type = McpToolDataTypeContext := by
        rcases hbad with ⟨q, hq, hqc⟩
        rcases List.mem_cons.mp hq with h | h
        · exact absurd (h ▸ hqc) hc
        · exact ⟨q, h, hqc⟩
      simp [buildSchema, hc, ih (i + 1) _ _ (by omega) this]

theorem buildSchema_bad_zero (ps : List McpToolParameter) (props : List (String × McpToolInputSchemaProperty)) (req : List String)
    (hbad : ∃ p ∈ ps.drop 1, p.type = McpToolDataTypeContext) :
    buildSchema ps 0 props req = .error "context.Context must be the first parameter" := by
  cases ps with
  | nil => simp at hbad
  | cons p rest =>
    simp only [List.drop_succ_cons, List.drop_zero] at hbad
    by_cases hc : p.type = McpToolDataTypeContext
    · simpa [buildSchema, hc] using buildSchema_bad_pos rest 1 props req (by omega) hbad
    · simpa [buildSchema, hc] using buildSchema_bad_pos rest 1 _ _ (by omega) hbad

theorem buildSchema_good :
    ∀ (ps : List McpToolParameter), (∀ p ∈ ps, p.type ≠ McpToolDataTypeContext) →
      ∀ (i : Nat) props req,
      buildSchema ps i props req =
        .ok (ps.foldl (fun acc p => propInsert acc p.name
              { type := p.type, description := p.description }) props,
            req ++ ps.map (fun p => p.name)) := by
  intro ps
  induction ps with
  | nil => intro _ i props req; simp [buildSchema]
  | cons p rest ih =>
    intro h i props req
    have hc := h p (List.mem_cons_self _ _)
    have hrest := fun q hq => h q (List.mem_cons_of_mem _ hq)
    simp [buildSchema, hc, ih hrest (i + 1)]

theorem nonCtx_filter_all (ps : List McpToolParameter)
    (h : ∀ p ∈ ps, p.type ≠ McpToolDataTypeContext) : nonCtxParams ps = ps := by
  unfold nonCtxParams
  apply List.filter_eq_self.mpr
  intro p hp
  simpa using h p hp

theorem buildSchema_good_zero (ps : List McpToolParameter)
    (hgood : ∀ p ∈ ps.drop 1, p.type ≠ McpToolDataTypeContext) :
    buildSchema ps 0 [] [] =
      .ok ((nonCtxParams ps).foldl (fun acc p => propInsert acc p.name
            { type := p.type, description := p.description }) [],
          (nonCtxParams ps).map (fun p => p.name)) := by
  cases ps with
  | nil => simp [buildSchema, nonCtxParams]
  | cons p rest =>
    simp only [List.drop_succ_cons, List.drop_zero] at hgood
    have hrest : nonCtxParams rest = rest := nonCtx_filter_all rest hgood
    by_cases hc : p.type = McpToolDataTypeContext
    · have hctx : nonCtxParams (p :: rest) = rest := by
        unfold nonCtxParams at hrest ⊢
        simp [List.filter_cons, hc, hrest]
      rw [hctx]
      simpa [buildSchema, hc] using buildSchema_good rest hgood 1 [] []
    · have hall : ∀ q ∈ p :: rest, q.type ≠ McpToolDataTypeContext := by
        intro q hq
        rcases List.mem_cons.mp hq with h | h
        · exact h ▸ hc
        · exact hgood q h
      rw [nonCtx_filter_all (p :: rest) hall]
      exact buildSchema_good (p :: rest) hall 0 [] []

theorem propInsert_fresh :
    ∀ (props : List (String × McpToolInputSchemaProperty)) (k : String)
      (v : McpToolInputSchemaProperty), (∀ pr ∈ props, pr.1 ≠ k) →
      propInsert props k v = props ++ [(k, v)] := by
  intro props
  induction props with
  | nil => intro k v _; simp [propInsert]
  | cons pr rest ih =>
    intro k v h
    have h1 := h pr (List.mem_cons_self _ _)
    obtain ⟨k', v'⟩ := pr
    simp only [ne_eq] at h1
    simp [propInsert, h1, ih k v (fun q hq => h q (List.mem_cons_of_mem _ hq))]

theorem foldl_propInsert_fresh :
    ∀ (ps : List McpToolParameter) (props : List (String × McpToolInputSchemaProperty)),
      (∀ p ∈ ps, ∀ pr ∈ props, pr.1 ≠ p.name) →
      (ps.map (fun p => p.name)).Nodup →
      ps.foldl (fun acc p => propInsert acc p.name
          { type := p.type, description := p.description }) props =
        props ++ ps.map propOf := by
  intro ps
  induction ps with
  | nil => intro props _ _; simp
  | cons p rest ih =>
    intro props hfresh hnd
    have h1 : propInsert props p.name { type := p.type, description := p.description } =
        props ++ [propOf p] :=
      propInsert_fresh props p.name _ (fun pr hpr =>
        hfresh p (List.mem_cons_self _ _) pr hpr)
    have hnd2 : p.name ∉ rest.map (fun p => p.name) ∧
        (rest.map (fun p => p.name)).Nodup := by
      rw [List.map_cons, List.nodup_cons] at hnd
      exact hnd
    have hnd' := hnd2.2
    have hnotin := hnd2.1
    have hfresh' : ∀ q ∈ rest, ∀ pr ∈ props ++ [propOf p], pr.1 ≠ q.name := by
      intro q hq pr hpr
      rcases List.mem_append.mp hpr with h | h
      · exact hfresh q (List.mem_cons_of_mem _ hq) pr h
      · have : pr = propOf p := by simpa using h
        subst this
        intro hcontra
        exact hnotin (by
          simp only [List.mem_map]
          exact ⟨q, hq, hcontra.symm⟩)
    calc (p :: rest).foldl (fun acc p => propInsert acc p.name
          { type := p.type, description := p.description }) props
        = rest.foldl (fun acc p => propInsert acc p.name
            { type := p.type, description := p.description }) (props ++ [propOf p]) := by
          simp [List.foldl_cons, h1]
      _ = (props ++ [propOf p]) ++ rest.map propOf := ih (props ++ [propOf p]) hfresh' hnd'
      _ = props ++ (p :: rest).map propOf := by simp

theorem propInsert_keys :
    ∀ (props : List (String × McpToolInputSchemaProperty)) (k : String)
      (v : McpToolInputSchemaProperty) (x : String),
      x ∈ (propInsert props k v).map Prod.fst → x ∈ props.map Prod.fst ∨ x = k := by
  intro props
  induction props with
  | nil =>
    intro k v x hx
    rw [show propInsert [] k v = [(k, v)] from rfl] at hx
    simp at hx
    exact Or.inr hx
  | cons pr rest ih =>
    intro k v x hx
    obtain ⟨k', v'⟩ := pr
    by_cases hk : k' = k
    · subst hk
      rw [show propInsert ((k', v') :: rest) k' v = (k', v) :: rest from by
        simp [propInsert]] at hx
      rw [List.map_cons, List.mem_cons] at hx
      rcases hx with hx | hx
      · exact Or.inr hx
      · exact Or.inl (by rw [List.map_cons, List.mem_cons]; exact Or.inr hx)
    · rw [show propInsert ((k', v') :: rest) k v = (k', v') :: propInsert rest k v from by
        simp [propInsert, hk]] at hx
      rw [List.map_cons, List.mem_cons] at hx
      rcases hx with hx | hx
      · exact Or.inl (by rw [List.map_cons, List.mem_cons]; exact Or.inl hx)
      · rcases ih k v x hx with h | h
        · exact Or.inl (by rw [List.map_cons, List.mem_cons]; exact Or.inr h)
        · exact Or.inr h

theorem foldl_propInsert_keys :
    ∀ (ps : List McpToolParameter) (props : List (String × McpToolInputSchemaProperty))
      (x : String),
      x ∈ ((ps.foldl (fun acc p => propInsert acc p.name
          { type := p.type, description := p.description }) props).map Prod.fst) →
      x ∈ props.map Prod.fst ∨ ∃ p ∈ ps, p.name = x := by
  intro ps
  induction ps with
  | nil => intro props x hx; exact Or.inl hx
  | cons p rest ih =>
    intro props x hx
    simp only [List.foldl_cons] at hx
    rcases ih _ x hx with h | h
    · rcases propInsert_keys props p.name _ x h with h' | h'
      · exact Or.inl h'
      · exact Or.inr ⟨p, List.mem_cons_self _ _, h'.symm⟩
    · obtain ⟨q, hq, hqx⟩ := h
      exact Or.inr ⟨q, List.mem_cons_of_mem _ hq, hqx⟩

theorem listToolsAux_good :
    ∀ (m : ToolMap),
      (∀ e ∈ m, ∀ p ∈ (e.2 : McpTool).parameters.drop 1,
        p.type ≠ McpToolDataTypeContext) →
      listToolsAux m = .ok (m.map (fun e => descOf e.2)) := by
  intro m
  induction m with
  | nil => intro _; simp [listToolsAux]
  | cons e rest ih =>
    intro h
    obtain ⟨nm, t⟩ := e
    have hhd := h (nm, t) (List.mem_cons_self _ _)
    have hrest := fun e' he' => h e' (List.mem_cons_of_mem _ he')
    simp only [listToolsAux]
    rw [buildSchema_good_zero t.parameters hhd, ih hrest]
    simp [descOf, Except.map]

theorem listToolsAux_bad :
    ∀ (m : ToolMap),
      (∃ e ∈ m, ∃ p ∈ (e.2 : McpTool).parameters.drop 1,
        p.type = McpToolDataTypeContext) →
      listToolsAux m = .error "context.Context must be the first parameter" := by
  intro m
  induction m with
  | nil => intro h; simp at h
  | cons e rest ih =>
    intro h
    obtain ⟨nm, t⟩ := e
    rcases h with ⟨e', he', hbad⟩
    rcases List.mem_cons.mp he' with h' | h'
    · subst h'
      simp only [listToolsAux]
      rw [buildSchema_bad_zero _ _ _ hbad]
    · rcases buildSchema_msg t.parameters 0 [] [] with ⟨x, hx⟩ | hx
      · simp only [listToolsAux]
        rw [hx, ih ⟨e', h', hbad⟩]
        obtain ⟨props, req⟩ := x
        simp [Except.map]
      · simp only [listToolsAux]
        rw [hx]

theorem listToolsAux_msg :
    ∀ (m : ToolMap),
      (∃ l, listToolsAux m = .ok l) ∨
        listToolsAux m = .error "context.Context must be the first parameter" := by
  intro m
  induction m with
  | nil => exact Or.inl ⟨_, rfl⟩
  | cons e rest ih =>
    obtain ⟨nm, t⟩ := e
    rcases buildSchema_msg t.parameters 0 [] [] with ⟨x, hx⟩ | hx
    · obtain ⟨props, req⟩ := x
      rcases ih with ⟨l, hl⟩ | hl
      · refine Or.inl ⟨{ name := t.name, description := t.description,
                         inputSchema := { type := "object", properties := props,
                                          required := req } } :: l, ?_⟩
        simp only [listToolsAux]
        rw [hx, hl]
        rfl
      · refine Or.inr ?_
        simp only [listToolsAux]
        rw [hx, hl]
        rfl
    · refine Or.inr ?_
      simp only [listToolsAux]
      rw [hx]

/-- Claim C6 fails as stated on the code: a tool with two non-context
parameters that share the name `a` produces a descriptor with a single
property entry (the later parameter overwrites the earlier one in the Go
properties map, and the number-typed `a` keeps no property carrying its
type), while `required` still lists the name twice. -/
theorem C6_counterexample :
    ListTools [("t", dupNameTool)] =
      .ok [{ name := "t", description := "",
             inputSchema := { type := "object",
                              properties := [("a", { type := "string",
                                                     description := "" })],
                              required := ["a", "a"] } }] ∧
    ([("a", ({ type := "string", description := "" } : McpToolInputSchemaProperty))]).length =
      1 ∧
    (nonCtxParams dupNameTool.parameters).length = 2 :=
  ⟨rfl, rfl, rfl⟩

/-- Claim C6 (amended): `ListTools` fails with the no-registered-tools
error exactly when the map is empty; a context-typed parameter at a
position other than 0 in any tool makes it fail with the
context-must-be-first error; otherwise it returns one descriptor per
registered tool with `inputSchema.type = "object"`, a required list
naming every non-context parameter (once per parameter, duplicates
included), property keys drawn only from non-context parameter names (so
never from a context parameter), and — provided the tool's non-context
parameter names are pairwise distinct — exactly one property entry per
non-context parameter carrying that parameter's type and description. -/
theorem C6_amended_list_tools :
    (∀ m : ToolMap, ListTools m = .error "no registered tools" ↔ m = []) ∧
    (∀ m : ToolMap,
      (∃ e ∈ m, ∃ p ∈ (e.2 : McpTool).parameters.drop 1,
        p.type = McpToolDataTypeContext) →
      ListTools m = .error "context.Context must be the first parameter") ∧
    (∀ m : ToolMap, m ≠ [] →
      (∀ e ∈ m, ∀ p ∈ (e.2 : McpTool).parameters.drop 1,
        p.type ≠ McpToolDataTypeContext) →
      ListTools m = .ok (m.map (fun e => descOf e.2)) ∧
      (m.map (fun e => descOf e.2)).length = m.length) ∧
    (∀ t : McpTool,
      (descOf t).name = t.name ∧ (descOf t).description = t.description ∧
      (descOf t).inputSchema.type = "object" ∧
      (descOf t).inputSchema.required = (nonCtxParams t.parameters).map (fun p => p.name) ∧
      (∀ k, k ∈ (descOf t).inputSchema.properties.map Prod.fst →
        ∃ p ∈ nonCtxParams t.parameters, p.name = k) ∧
      (((nonCtxParams t.parameters).map (fun p => p.name)).Nodup →
        (descOf t).inputSchema.properties = (nonCtxParams t.parameters).map propOf)) := by
  refine ⟨fun m => ⟨fun h => ?_, fun h => by simp [h, ListTools]⟩,
    fun m hbad => ?_, fun m hne hgood => ⟨?_, by simp⟩, fun t => ⟨rfl, rfl, rfl, rfl,
      fun k hk => ?_, fun hnd => ?_⟩⟩
  · by_cases hm : m = []
    · exact hm
    · exfalso
      have hie : m.isEmpty = false := by
        cases m with
        | nil => exact absurd rfl hm
        | cons a l => rfl
      rcases listToolsAux_msg m with ⟨l, hl⟩ | hl
      · rw [ListTools, hie] at h
        simp at h
        rw [hl] at h
        cases h
      · rw [ListTools, hie] at h
        simp at h
        rw [hl] at h
        simp at h
  · have hne : m ≠ [] := by
      rcases hbad with ⟨e, he, _⟩
      intro hm
      subst hm
      simp at he
    have hie : m.isEmpty = false := by
      cases m with
      | nil => exact absurd rfl hne
      | cons a l => rfl
    rw [ListTools, hie]
    simp
    exact listToolsAux_bad m hbad
  · have hie : m.isEmpty = false := by
      cases m with
      | nil => exact absurd rfl hne
      | cons a l => rfl
    rw [ListTools, hie]
    simp
    exact listToolsAux_good m hgood
  · rcases foldl_propInsert_keys (nonCtxParams t.parameters) [] k hk with h | h
    · simp at h
    · obtain ⟨p, hp, hpk⟩ := h
      exact ⟨p, hp, hpk⟩
  · have := foldl_propInsert_fresh (nonCtxParams t.parameters) []
      (fun p _ pr hpr => absurd hpr (List.not_mem_nil _)) hnd
    simpa [descOf] using this

/-- Concrete instantiation of `C6_amended_list_tools`: a one-tool map
with a single `number` parameter `a` lists exactly one descriptor. -/
theorem C6_witness :
    ListTools [("t", oneParamTool)] =
      .ok ([("t", oneParamTool)].map (fun e => descOf e.2)) ∧
    ([("t", oneParamTool)].map (fun e => descOf e.2)).length =
      ([("t", oneParamTool)] : ToolMap).length :=
  C6_amended_list_tools.2.2.1 [("t", oneParamTool)]
    (fun h => List.noConfusion h) (by decide)

end GoMcp
